import Mathlib

/-
Verification of the moving-load beam analysis in src/task.py
(function analyze_beam).

The program is embedded shallowly over exact rationals:

* num_points, positions  : the np.linspace(0, L, 1000) sample grid;
* Ra, Rb                 : support reactions for a given reference
                           position y of the leading load (lines 50-73);
* SF, BM                 : shear-force and bending-moment entries for a
                           reference position y and observation point z
                           (lines 76-113);
* npArgmax, npArgmin     : np.argmax / np.argmin (first occurrence of the
                           extremum);
* sfFold, bmFold         : the two reduction loops of lines 125-146.  The
                           Python accumulators max_SF and max_BM start at
                           -float(inf); that sentinel is embedded as
                           Option ℚ with none standing for the float -inf.
* analyze_beam           : validation plus assembly of the result record
                           (lines 27-173).
-/

def num_points : ℕ := 1000

/-- Sample i of np.linspace(0, L, num_points) (line 37): equals
i * L / (num_points - 1). -/
def positions (L : ℚ) (i : ℕ) : ℚ := (i : ℚ) * L / ((num_points : ℚ) - 1)

/-- Reaction at support A for reference position y of the leading load
(lines 50-70).  The inner guard mirrors the source conditional
`if y + x >= 0 else 0`. -/
def Ra (L W1 W2 x y : ℚ) : ℚ :=
  if y ≤ L then
    if y + x ≤ L then
      W1 * (L - y) / L + (if 0 ≤ y + x then W2 * (L - (y + x)) / L else 0)
    else
      W1 * (L - y) / L
  else 0

/-- Reaction at support B for reference position y (lines 50-70). -/
def Rb (L W1 W2 x y : ℚ) : ℚ :=
  if y ≤ L then
    if y + x ≤ L then
      W1 * y / L + (if 0 ≤ y + x then W2 * (y + x) / L else 0)
    else
      W1 * y / L
  else 0

/-- Shear force at observation point z for reference position y
(lines 76-97), translating the elif chain branch by branch. -/
def SF (L W1 W2 x y z : ℚ) : ℚ :=
  if z < y then Ra L W1 W2 x y
  else if z = y then Ra L W1 W2 x y - W1 / 2
  else if z < y + x ∧ y + x ≤ L then Ra L W1 W2 x y - W1
  else if z = y + x ∧ y + x ≤ L then Ra L W1 W2 x y - W1 - W2 / 2
  else if y + x < z ∧ y + x ≤ L then Ra L W1 W2 x y - W1 - W2
  else Ra L W1 W2 x y - W1

/-- Bending moment at observation point z for reference position y
(lines 99-113), translating the elif chain branch by branch. -/
def BM (L W1 W2 x y z : ℚ) : ℚ :=
  if z < y then Ra L W1 W2 x y * z
  else if y < z ∧ z < y + x ∧ y + x ≤ L then Ra L W1 W2 x y * z - W1 * (z - y)
  else if y + x < z ∧ y + x ≤ L then
    Ra L W1 W2 x y * z - W1 * (z - y) - W2 * (z - (y + x))
  else Ra L W1 W2 x y * z - W1 * (z - y)

/-- Entry (i, j) of the SF_values table (line 97). -/
def SF_values (L W1 W2 x : ℚ) (i j : ℕ) : ℚ :=
  SF L W1 W2 x (positions L i) (positions L j)

/-- Entry (i, j) of the BM_values table (line 113). -/
def BM_values (L W1 W2 x : ℚ) (i j : ℕ) : ℚ :=
  BM L W1 W2 x (positions L i) (positions L j)

/-- np.argmax over f 0 .. f (n-1): index of the first occurrence of the
maximum (0 when n = 0). -/
def npArgmax (f : ℕ → ℚ) (n : ℕ) : ℕ :=
  (List.range n).foldl (fun best i => if f best < f i then i else best) 0

/-- np.argmin over f 0 .. f (n-1): index of the first occurrence of the
minimum (0 when n = 0). -/
def npArgmin (f : ℕ → ℚ) (n : ℕ) : ℕ :=
  (List.range n).foldl (fun best i => if f i < f best then i else best) 0

/-- One step of the max_SF loop (lines 129-134).  The accumulator
component acc.1 embeds the Python float max_SF, with none standing for
the initial value -float(inf).  The source guard is
`abs(SF_values[i, max_index]) > abs(max_SF)`; when max_SF is -inf its
absolute value is +inf, so the comparison is False and the accumulator
is kept, which is what the none arm does. -/
def sfStep (val pO rP : ℕ → ℚ) (acc : Option ℚ × ℚ × ℚ) (i : ℕ) :
    Option ℚ × ℚ × ℚ :=
  match acc.1 with
  | none => acc
  | some v => if |v| < |val i| then (some (val i), pO i, rP i) else acc

/-- One step of the max_BM loop (lines 141-146).  The source guard is
`BM_values[i, max_index] > max_BM`; when max_BM is the initial -inf any
finite value wins, which is what the none arm does. -/
def bmStep (val pO rP : ℕ → ℚ) (acc : Option ℚ × ℚ × ℚ) (i : ℕ) :
    Option ℚ × ℚ × ℚ :=
  match acc.1 with
  | none => (some (val i), pO i, rP i)
  | some v => if v < val i then (some (val i), pO i, rP i) else acc

/-- The max_SF loop of lines 125-134, folded over the reference-position
indices.  val i is the signed row value compared and stored, pO i the
stored observation position, rP i the stored reference position. -/
def sfFold (val pO rP : ℕ → ℚ) (n : ℕ) : Option ℚ × ℚ × ℚ :=
  (List.range n).foldl (sfStep val pO rP) (none, 0, 0)

/-- The max_BM loop of lines 137-146. -/
def bmFold (val pO rP : ℕ → ℚ) (n : ℕ) : Option ℚ × ℚ × ℚ :=
  (List.range n).foldl (bmStep val pO rP) (none, 0, 0)

/-- Index chosen by `np.argmax(np.abs(SF_values[i]))` (line 130). -/
def sfRowIdx (L W1 W2 x : ℚ) (i : ℕ) : ℕ :=
  npArgmax (fun j => |SF_values L W1 W2 x i j|) num_points

/-- Index chosen by `np.argmax(BM_values[i])` (line 142). -/
def bmRowIdx (L W1 W2 x : ℚ) (i : ℕ) : ℕ :=
  npArgmax (fun j => BM_values L W1 W2 x i j) num_points

/-- Result (max_SF, max_SF_position, max_SF_w1_position) of the loop at
lines 125-134. -/
def maxSFreduce (L W1 W2 x : ℚ) : Option ℚ × ℚ × ℚ :=
  sfFold (fun i => SF_values L W1 W2 x i (sfRowIdx L W1 W2 x i))
    (fun i => positions L (sfRowIdx L W1 W2 x i))
    (fun i => positions L i) num_points

/-- Result (max_BM, max_BM_position, max_BM_w1_position) of the loop at
lines 137-146. -/
def maxBMreduce (L W1 W2 x : ℚ) : Option ℚ × ℚ × ℚ :=
  bmFold (fun i => BM_values L W1 W2 x i (bmRowIdx L W1 W2 x i))
    (fun i => positions L (bmRowIdx L W1 W2 x i))
    (fun i => positions L i) num_points

/-- max_Ra_index (line 116). -/
def maxRaIdx (L W1 W2 x : ℚ) : ℕ :=
  npArgmax (fun i => Ra L W1 W2 x (positions L i)) num_points

/-- max_Ra (line 117). -/
def maxRaVal (L W1 W2 x : ℚ) : ℚ :=
  Ra L W1 W2 x (positions L (maxRaIdx L W1 W2 x))

/-- max_Ra_position (line 118). -/
def maxRaPos (L W1 W2 x : ℚ) : ℚ := positions L (maxRaIdx L W1 W2 x)

/-- max_Rb_index (line 120). -/
def maxRbIdx (L W1 W2 x : ℚ) : ℕ :=
  npArgmax (fun i => Rb L W1 W2 x (positions L i)) num_points

/-- max_Rb (line 121). -/
def maxRbVal (L W1 W2 x : ℚ) : ℚ :=
  Rb L W1 W2 x (positions L (maxRbIdx L W1 W2 x))

/-- max_Rb_position (line 122). -/
def maxRbPos (L W1 W2 x : ℚ) : ℚ := positions L (maxRbIdx L W1 W2 x)

/-- mid_point_index (line 154). -/
def midPointIdx (L : ℚ) : ℕ :=
  npArgmin (fun j => |positions L j - L / 2|) num_points

/-- The result record returned by analyze_beam (lines 158-171).  The two
max_SF and max_BM value fields are Option ℚ because the Python floats
can hold the -inf sentinel. -/
structure AnalysisResult where
  max_reaction_A : ℚ
  max_reaction_A_position : ℚ
  max_reaction_B : ℚ
  max_reaction_B_position : ℚ
  BM_01 : ℚ
  SF_01 : ℚ
  max_SF : Option ℚ
  max_SF_position : ℚ
  max_SF_w1_position : ℚ
  max_BM : Option ℚ
  max_BM_position : ℚ
  max_BM_w1_position : ℚ
  deriving Repr, DecidableEq

/-- analyze_beam (lines 13-173): validation first (lines 28-33, in source
order), then the computation and the assembly of the result record. -/
def analyze_beam (L W1 W2 x : ℚ) : Except String AnalysisResult :=
  if L ≤ 0 then Except.error "Beam length must be positive"
  else if x < 0 ∨ L < x then Except.error "Distance x must be between 0 and L"
  else if W1 ≤ 0 ∨ W2 ≤ 0 then Except.error "Load values must be positive"
  else
    Except.ok
      { max_reaction_A := maxRaVal L W1 W2 x
        max_reaction_A_position := maxRaPos L W1 W2 x
        max_reaction_B := maxRbVal L W1 W2 x
        max_reaction_B_position := maxRbPos L W1 W2 x
        BM_01 := BM_values L W1 W2 x 0 0
        SF_01 := SF_values L W1 W2 x 0 (midPointIdx L)
        max_SF := (maxSFreduce L W1 W2 x).1
        max_SF_position := (maxSFreduce L W1 W2 x).2.1
        max_SF_w1_position := (maxSFreduce L W1 W2 x).2.2
        max_BM := (maxBMreduce L W1 W2 x).1
        max_BM_position := (maxBMreduce L W1 W2 x).2.1
        max_BM_w1_position := (maxBMreduce L W1 W2 x).2.2 }

/- ------------------------------------------------------------------ -/
/- Helper lemmas about the sample grid.                               -/
/- ------------------------------------------------------------------ -/

lemma positions_eq (L : ℚ) (i : ℕ) : positions L i = i * L / 999 := by
  norm_num [positions, num_points]

lemma positions_zero (L : ℚ) : positions L 0 = 0 := by
  simp [positions]

lemma positions_last (L : ℚ) : positions L 999 = L := by
  rw [positions_eq]
  norm_num

lemma positions_nonneg (L : ℚ) (hL : 0 ≤ L) (i : ℕ) : 0 ≤ positions L i := by
  rw [positions_eq]
  positivity

lemma positions_pos (L : ℚ) (hL : 0 < L) (i : ℕ) (hi : 1 ≤ i) :
    0 < positions L i := by
  rw [positions_eq]
  have h1 : (1 : ℚ) ≤ (i : ℚ) := by exact_mod_cast hi
  have h2 : (0 : ℚ) < i * L := by nlinarith
  positivity

lemma positions_le (L : ℚ) (hL : 0 < L) (i : ℕ) (hi : i ≤ 999) :
    positions L i ≤ L := by
  rw [positions_eq, div_le_iff₀ (by norm_num : (0:ℚ) < 999)]
  have h1 : (i : ℚ) ≤ 999 := by exact_mod_cast hi
  nlinarith

lemma positions_lt (L : ℚ) (hL : 0 < L) (i : ℕ) (hi : i < 999) :
    positions L i < L := by
  rw [positions_eq, div_lt_iff₀ (by norm_num : (0:ℚ) < 999)]
  have h1 : (i : ℚ) ≤ 998 := by exact_mod_cast Nat.le_of_lt_succ hi
  nlinarith

lemma positions_strictMono (L : ℚ) (hL : 0 < L) (i j : ℕ) (hij : i < j) :
    positions L i < positions L j := by
  rw [positions_eq, positions_eq, div_lt_div_iff₀ (by norm_num : (0:ℚ) < 999)
    (by norm_num : (0:ℚ) < 999)]
  have h1 : (i : ℚ) < j := by exact_mod_cast hij
  nlinarith

/- ------------------------------------------------------------------ -/
/- Helper lemmas about npArgmax and the two reduction folds.          -/
/- ------------------------------------------------------------------ -/

lemma npArgmax_zero (f : ℕ → ℚ) : npArgmax f 0 = 0 := rfl

lemma npArgmax_succ (f : ℕ → ℚ) (n : ℕ) :
    npArgmax f (n + 1) =
      if f (npArgmax f n) < f n then n else npArgmax f n := by
  simp [npArgmax, List.range_succ]

/-- npArgmax returns an in-range index realizing the maximum, and every
strictly earlier index has a strictly smaller value (first occurrence). -/
lemma npArgmax_spec (f : ℕ → ℚ) (n : ℕ) (hn : 0 < n) :
    npArgmax f n < n ∧ (∀ i, i < n → f i ≤ f (npArgmax f n)) ∧
      (∀ i, i < npArgmax f n → f i < f (npArgmax f n)) := by
  induction n with
  | zero => exact absurd hn (lt_irrefl 0)
  | succ n ih =>
    rcases Nat.eq_zero_or_pos n with hn0 | hn1
    · subst hn0
      rw [npArgmax_succ, npArgmax_zero]
      simp only [lt_self_iff_false, if_false]
      refine ⟨Nat.zero_lt_one, ?_, ?_⟩
      · intro i hi
        interval_cases i
        exact le_rfl
      · intro i hi
        exact absurd hi (Nat.not_lt_zero i)
    · obtain ⟨h1, h2, h3⟩ := ih hn1
      rw [npArgmax_succ]
      split_ifs with h
      · refine ⟨Nat.lt_succ_self n, ?_, ?_⟩
        · intro i hi
          rcases Nat.lt_succ_iff_lt_or_eq.mp hi with hi' | hi'
          · exact (h2 i hi').trans h.le
          · subst hi'; exact le_rfl
        · intro i hi
          exact (h2 i hi).trans_lt h
      · refine ⟨h1.trans (Nat.lt_succ_self n), ?_, h3⟩
        intro i hi
        rcases Nat.lt_succ_iff_lt_or_eq.mp hi with hi' | hi'
        · exact h2 i hi'
        · subst hi'; exact not_lt.mp h

/-- If index 0 already realizes the maximum, the first-occurrence argmax
is 0. -/
lemma npArgmax_eq_zero (f : ℕ → ℚ) (n : ℕ) (h : ∀ i, i < n → f i ≤ f 0) :
    npArgmax f n = 0 := by
  induction n with
  | zero => rfl
  | succ n ih =>
    rw [npArgmax_succ, ih (fun i hi => h i (hi.trans (Nat.lt_succ_self n)))]
    rw [if_neg (not_lt.mpr (h n (Nat.lt_succ_self n)))]

/-- If index j strictly dominates every other index, the argmax is j. -/
lemma npArgmax_eq_of_strict (f : ℕ → ℚ) (n j : ℕ) (hj : j < n)
    (h : ∀ i, i < n → i ≠ j → f i < f j) : npArgmax f n = j := by
  obtain ⟨h1, h2, _⟩ := npArgmax_spec f n (Nat.pos_of_ne_zero (by omega))
  by_contra hne
  exact absurd (h2 j hj) (not_le.mpr (h (npArgmax f n) h1 hne))

lemma sfStep_none (val pO rP : ℕ → ℚ) (p q : ℚ) (i : ℕ) :
    sfStep val pO rP (none, p, q) i = (none, p, q) := rfl

/-- The max_SF loop never leaves its initial state: the accumulator
starts at the -inf sentinel, whose absolute value is +inf, so the update
guard `abs(row value) > abs(max_SF)` is always False. -/
lemma sfFold_eq_init (val pO rP : ℕ → ℚ) (n : ℕ) :
    sfFold val pO rP n = (none, 0, 0) := by
  have key : ∀ l : List ℕ,
      l.foldl (sfStep val pO rP) (none, 0, 0) = (none, 0, 0) := by
    intro l
    induction l with
    | nil => rfl
    | cons a l ihl =>
      rw [List.foldl_cons]
      exact ihl
  exact key (List.range n)

lemma bmFold_zero (val pO rP : ℕ → ℚ) : bmFold val pO rP 0 = (none, 0, 0) :=
  rfl

lemma bmFold_succ (val pO rP : ℕ → ℚ) (n : ℕ) :
    bmFold val pO rP (n + 1) =
      bmStep val pO rP (bmFold val pO rP n) n := by
  simp [bmFold, List.range_succ]

/-- The max_BM loop returns the row value of a reference index k that
realizes the maximum row value, together with that row index; all rows
have value at most val k and all rows before k are strictly smaller
(first occurrence, because the update guard is strict). -/
lemma bmFold_spec (val pO rP : ℕ → ℚ) (n : ℕ) (hn : 0 < n) :
    ∃ k, k < n ∧ bmFold val pO rP n = (some (val k), pO k, rP k) ∧
      (∀ i, i < n → val i ≤ val k) ∧ (∀ i, i < k → val i < val k) := by
  induction n with
  | zero => exact absurd hn (lt_irrefl 0)
  | succ n ih =>
    rcases Nat.eq_zero_or_pos n with hn0 | hn1
    · subst hn0
      refine ⟨0, Nat.zero_lt_one, ?_, ?_, ?_⟩
      · rw [bmFold_succ, bmFold_zero]
        rfl
      · intro i hi
        interval_cases i
        exact le_rfl
      · intro i hi
        exact absurd hi (Nat.not_lt_zero i)
    · obtain ⟨k, hk, heq, hmax, hfirst⟩ := ih hn1
      rw [bmFold_succ, heq]
      by_cases hv : val k < val n
      · refine ⟨n, Nat.lt_succ_self n, ?_, ?_, ?_⟩
        · show (if val k < val n then (some (val n), pO n, rP n)
            else (some (val k), pO k, rP k)) = (some (val n), pO n, rP n)
          rw [if_pos hv]
        · intro i hi
          rcases Nat.lt_succ_iff_lt_or_eq.mp hi with hi' | hi'
          · exact (hmax i hi').trans hv.le
          · subst hi'; exact le_rfl
        · intro i hi
          exact (hmax i hi).trans_lt hv
      · refine ⟨k, hk.trans (Nat.lt_succ_self n), ?_, ?_, hfirst⟩
        · show (if val k < val n then (some (val n), pO n, rP n)
            else (some (val k), pO k, rP k)) = (some (val k), pO k, rP k)
          rw [if_neg hv]
        · intro i hi
          rcases Nat.lt_succ_iff_lt_or_eq.mp hi with hi' | hi'
          · exact hmax i hi'
          · subst hi'; exact not_lt.mp hv

/- ------------------------------------------------------------------ -/
/- Branch lemmas for the reactions.                                   -/
/- ------------------------------------------------------------------ -/

lemma Ra_both (L W1 W2 x y : ℚ) (h1 : y ≤ L) (h2 : y + x ≤ L)
    (h3 : 0 ≤ y + x) :
    Ra L W1 W2 x y = W1 * (L - y) / L + W2 * (L - (y + x)) / L := by
  simp [Ra, h1, h2, h3]

lemma Ra_w1only (L W1 W2 x y : ℚ) (h1 : y ≤ L) (h2 : L < y + x) :
    Ra L W1 W2 x y = W1 * (L - y) / L := by
  have h2' : ¬ (y + x ≤ L) := not_le.mpr h2
  simp [Ra, h1, h2']

lemma Ra_offspan (L W1 W2 x y : ℚ) (h : L < y) : Ra L W1 W2 x y = 0 := by
  have h' : ¬ (y ≤ L) := not_le.mpr h
  simp [Ra, h']

lemma Rb_both (L W1 W2 x y : ℚ) (h1 : y ≤ L) (h2 : y + x ≤ L)
    (h3 : 0 ≤ y + x) :
    Rb L W1 W2 x y = W1 * y / L + W2 * (y + x) / L := by
  simp [Rb, h1, h2, h3]

lemma Rb_w1only (L W1 W2 x y : ℚ) (h1 : y ≤ L) (h2 : L < y + x) :
    Rb L W1 W2 x y = W1 * y / L := by
  have h2' : ¬ (y + x ≤ L) := not_le.mpr h2
  simp [Rb, h1, h2']

lemma Rb_offspan (L W1 W2 x y : ℚ) (h : L < y) : Rb L W1 W2 x y = 0 := by
  have h' : ¬ (y ≤ L) := not_le.mpr h
  simp [Rb, h']

/-- Ra is strictly antitone in the reference position on [0, L]. -/
lemma Ra_strict_anti (L W1 W2 x y1 y2 : ℚ) (hL : 0 < L) (hx0 : 0 ≤ x)
    (hW1 : 0 < W1) (hW2 : 0 < W2) (h01 : 0 ≤ y1) (h12 : y1 < y2)
    (h2L : y2 ≤ L) : Ra L W1 W2 x y2 < Ra L W1 W2 x y1 := by
  have h1L : y1 ≤ L := (h12.trans_le h2L).le
  have h1b : 0 ≤ y1 + x := by linarith
  by_cases hb2 : y2 + x ≤ L
  · have hb1 : y1 + x ≤ L := by linarith
    rw [Ra_both L W1 W2 x y1 h1L hb1 h1b,
      Ra_both L W1 W2 x y2 h2L hb2 (by linarith),
      div_add_div_same, div_add_div_same, div_lt_div_iff₀ hL hL]
    nlinarith [mul_pos (mul_pos hW1 (sub_pos.mpr h12)) hL,
      mul_pos (mul_pos hW2 (sub_pos.mpr h12)) hL]
  · rw [Ra_w1only L W1 W2 x y2 h2L (not_le.mp hb2)]
    by_cases hb1 : y1 + x ≤ L
    · rw [Ra_both L W1 W2 x y1 h1L hb1 h1b]
      have k1 : W1 * (L - y2) / L < W1 * (L - y1) / L := by
        rw [div_lt_div_iff₀ hL hL]
        nlinarith [mul_pos (mul_pos hW1 (sub_pos.mpr h12)) hL]
      have k2 : 0 ≤ W2 * (L - (y1 + x)) / L :=
        div_nonneg (mul_nonneg hW2.le (by linarith)) hL.le
      linarith
    · rw [Ra_w1only L W1 W2 x y1 h1L (not_le.mp hb1),
        div_lt_div_iff₀ hL hL]
      nlinarith [mul_pos (mul_pos hW1 (sub_pos.mpr h12)) hL]

/- ------------------------------------------------------------------ -/
/- Case analysis of the shear and moment branch chains.               -/
/- ------------------------------------------------------------------ -/

/-- The six reachable cases of the shear elif chain (lines 78-95), in
source order. -/
lemma SF_cases (L W1 W2 x y z : ℚ) (hx0 : 0 ≤ x) :
    (z < y → SF L W1 W2 x y z = Ra L W1 W2 x y) ∧
    (z = y → SF L W1 W2 x y z = Ra L W1 W2 x y - W1 / 2) ∧
    (y < z → z < y + x → y + x ≤ L →
      SF L W1 W2 x y z = Ra L W1 W2 x y - W1) ∧
    (y < z → z = y + x → y + x ≤ L →
      SF L W1 W2 x y z = Ra L W1 W2 x y - W1 - W2 / 2) ∧
    (y + x < z → y + x ≤ L →
      SF L W1 W2 x y z = Ra L W1 W2 x y - W1 - W2) ∧
    (y < z → L < y + x → SF L W1 W2 x y z = Ra L W1 W2 x y - W1) := by
  refine ⟨?_, ?_, ?_, ?_, ?_, ?_⟩
  · intro h
    simp [SF, h]
  · intro h
    subst h
    simp [SF]
  · intro h1 h2 h3
    have n1 : ¬ (z < y) := not_lt.mpr h1.le
    have n2 : z ≠ y := ne_of_gt h1
    simp [SF, n1, n2, h2, h3]
  · intro h1 h2 h3
    have n1 : ¬ (z < y) := not_lt.mpr h1.le
    have n2 : z ≠ y := ne_of_gt h1
    subst h2
    simp [SF, n1, n2, h3, lt_irrefl]
  · intro h1 h2
    have hyz : y < z := (le_add_of_nonneg_right hx0).trans_lt h1
    have n1 : ¬ (z < y) := not_lt.mpr hyz.le
    have n2 : z ≠ y := ne_of_gt hyz
    have n3 : ¬ (z < y + x) := not_lt.mpr h1.le
    have n4 : z ≠ y + x := ne_of_gt h1
    simp [SF, n1, n2, n3, n4, h1, h2]
  · intro h1 h2
    have n1 : ¬ (z < y) := not_lt.mpr h1.le
    have n2 : z ≠ y := ne_of_gt h1
    have n5 : ¬ (y + x ≤ L) := not_le.mpr h2
    simp [SF, n1, n2, n5]

/-- The cases of the moment elif chain (lines 100-111), in source order,
together with the two undistinguished edge cases z = y and z = y + x
which land in the final else branch. -/
lemma BM_cases (L W1 W2 x y z : ℚ) (hx0 : 0 ≤ x) :
    (z < y → BM L W1 W2 x y z = Ra L W1 W2 x y * z) ∧
    (y < z → z < y + x → y + x ≤ L →
      BM L W1 W2 x y z = Ra L W1 W2 x y * z - W1 * (z - y)) ∧
    (y + x < z → y + x ≤ L →
      BM L W1 W2 x y z =
        Ra L W1 W2 x y * z - W1 * (z - y) - W2 * (z - (y + x))) ∧
    (L < y + x → y ≤ z →
      BM L W1 W2 x y z = Ra L W1 W2 x y * z - W1 * (z - y)) ∧
    (z = y → BM L W1 W2 x y z = Ra L W1 W2 x y * z - W1 * (z - y) ∧
      BM L W1 W2 x y z = Ra L W1 W2 x y * z) ∧
    (y < z → z = y + x → y + x ≤ L →
      BM L W1 W2 x y z = Ra L W1 W2 x y * z - W1 * (z - y)) := by
  refine ⟨?_, ?_, ?_, ?_, ?_, ?_⟩
  · intro h
    simp [BM, h]
  · intro h1 h2 h3
    have n1 : ¬ (z < y) := not_lt.mpr h1.le
    simp [BM, n1, h1, h2, h3]
  · intro h1 h2
    have hyz : y < z := (le_add_of_nonneg_right hx0).trans_lt h1
    have n1 : ¬ (z < y) := not_lt.mpr hyz.le
    have n2 : ¬ (z < y + x) := not_lt.mpr h1.le
    simp [BM, n1, n2, h1, h2]
  · intro h1 h2
    have n1 : ¬ (z < y) := not_lt.mpr h2
    have n5 : ¬ (y + x ≤ L) := not_le.mpr h1
    simp [BM, n1, n5]
  · intro h
    subst h
    have n3 : ¬ (z + x < z) := not_lt.mpr (le_add_of_nonneg_right hx0)
    constructor
    · simp [BM, n3]
    · simp [BM, n3]
  · intro h1 h2 h3
    have n1 : ¬ (z < y) := not_lt.mpr h1.le
    subst h2
    simp [BM, n1, lt_irrefl]

/- ------------------------------------------------------------------ -/
/- Claim theorems.                                                    -/
/- ------------------------------------------------------------------ -/

/-- Claim C2: for every valid input and every reference position in the
grid, Ra + Rb = W1 + W2 when both loads are on-span (y + x ≤ L) and
Ra + Rb = W1 when only W1 is on-span (y + x > L); exact over ℚ. -/
theorem c2_equilibrium (L W1 W2 x : ℚ) (hL : 0 < L) (hx0 : 0 ≤ x)
    (hxL : x ≤ L) (hW1 : 0 < W1) (hW2 : 0 < W2) (i : ℕ)
    (hi : i < num_points) :
    (positions L i + x ≤ L →
      Ra L W1 W2 x (positions L i) + Rb L W1 W2 x (positions L i) =
        W1 + W2) ∧
    (L < positions L i + x →
      Ra L W1 W2 x (positions L i) + Rb L W1 W2 x (positions L i) = W1) := by
  have hi' : i ≤ 999 := by
    have h : i < 1000 := by simpa [num_points] using hi
    omega
  have hy0 : 0 ≤ positions L i := positions_nonneg L hL.le i
  have hyL : positions L i ≤ L := positions_le L hL i hi'
  have hL' : L ≠ 0 := hL.ne'
  constructor
  · intro hb
    rw [Ra_both L W1 W2 x _ hyL hb (by linarith),
      Rb_both L W1 W2 x _ hyL hb (by linarith)]
    field_simp
    ring
  · intro hb
    rw [Ra_w1only L W1 W2 x _ hyL hb, Rb_w1only L W1 W2 x _ hyL hb]
    field_simp
    ring

/-- Witness for c2_equilibrium at L = 10, W1 = W2 = 40, x = 3, i = 0. -/
theorem c2_equilibrium_witness :
    (positions 10 0 + 3 ≤ 10 →
      Ra 10 40 40 3 (positions 10 0) + Rb 10 40 40 3 (positions 10 0) =
        40 + 40) ∧
    (10 < positions 10 0 + 3 →
      Ra 10 40 40 3 (positions 10 0) + Rb 10 40 40 3 (positions 10 0) =
        40) :=
  c2_equilibrium 10 40 40 3 (by decide) (by decide) (by decide) (by decide)
    (by decide) 0 (by decide)

/-- Claim C4: the reaction formulas per branch, plus the defensively
unreachable branch y > L returning 0 and the fact that the grid never
exceeds L. -/
theorem c4_reactions (L W1 W2 x : ℚ) (hL : 0 < L) (hx0 : 0 ≤ x)
    (hxL : x ≤ L) (hW1 : 0 < W1) (hW2 : 0 < W2) (i : ℕ)
    (hi : i < num_points) :
    positions L i ≤ L ∧
    (positions L i + x ≤ L →
      Ra L W1 W2 x (positions L i) =
        W1 * (L - positions L i) / L +
          W2 * (L - (positions L i + x)) / L ∧
      Rb L W1 W2 x (positions L i) =
        W1 * positions L i / L + W2 * (positions L i + x) / L) ∧
    (L < positions L i + x →
      Ra L W1 W2 x (positions L i) = W1 * (L - positions L i) / L ∧
      Rb L W1 W2 x (positions L i) = W1 * positions L i / L) ∧
    (∀ y, L < y → Ra L W1 W2 x y = 0 ∧ Rb L W1 W2 x y = 0) := by
  have hi' : i ≤ 999 := by
    have h : i < 1000 := by simpa [num_points] using hi
    omega
  have hy0 : 0 ≤ positions L i := positions_nonneg L hL.le i
  have hyL : positions L i ≤ L := positions_le L hL i hi'
  refine ⟨hyL, ?_, ?_, ?_⟩
  · intro hb
    exact ⟨Ra_both L W1 W2 x _ hyL hb (by linarith),
      Rb_both L W1 W2 x _ hyL hb (by linarith)⟩
  · intro hb
    exact ⟨Ra_w1only L W1 W2 x _ hyL hb, Rb_w1only L W1 W2 x _ hyL hb⟩
  · intro y hy
    exact ⟨Ra_offspan L W1 W2 x y hy, Rb_offspan L W1 W2 x y hy⟩

/-- Witness for c4_reactions at L = 10, W1 = W2 = 40, x = 3, i = 0. -/
theorem c4_reactions_witness :
    positions 10 0 ≤ 10 ∧
    (positions 10 0 + 3 ≤ 10 →
      Ra 10 40 40 3 (positions 10 0) =
        40 * (10 - positions 10 0) / 10 +
          40 * (10 - (positions 10 0 + 3)) / 10 ∧
      Rb 10 40 40 3 (positions 10 0) =
        40 * positions 10 0 / 10 + 40 * (positions 10 0 + 3) / 10) ∧
    (10 < positions 10 0 + 3 →
      Ra 10 40 40 3 (positions 10 0) = 40 * (10 - positions 10 0) / 10 ∧
      Rb 10 40 40 3 (positions 10 0) = 40 * positions 10 0 / 10) ∧
    (∀ y, 10 < y → Ra 10 40 40 3 y = 0 ∧ Rb 10 40 40 3 y = 0) :=
  c4_reactions 10 40 40 3 (by decide) (by decide) (by decide) (by decide)
    (by decide) 0 (by decide)

/-- Claim C9: the BM_01 diagnostic, the moment at observation point 0
when the reference position is the first grid point (coordinate 0), is
exactly 0. -/
theorem c9_BM01_zero (L W1 W2 x : ℚ) (hL : 0 < L) (hx0 : 0 ≤ x)
    (hxL : x ≤ L) (hW1 : 0 < W1) (hW2 : 0 < W2) :
    BM_values L W1 W2 x 0 0 = 0 := by
  have h :=
    ((BM_cases L W1 W2 x (positions L 0) (positions L 0) hx0).2.2.2.2.1
      rfl).2
  rw [BM_values, h, positions_zero, mul_zero]

/-- Witness for c9_BM01_zero at L = 10, W1 = W2 = 40, x = 3. -/
theorem c9_BM01_zero_witness : BM_values 10 40 40 3 0 0 = 0 :=
  c9_BM01_zero 10 40 40 3 (by decide) (by decide) (by decide) (by decide)
    (by decide)

/-- Claim C5: the shear field entry for reference position y =
positions L i, trailing load b = y + x and observation point z =
positions L j, case by case in the order of the source elif chain:
Ra before the leading load; Ra - W1/2 at the leading load (midpoint
convention); Ra - W1 strictly between the loads when b ≤ L;
Ra - W1 - W2/2 at the trailing load when b ≤ L (midpoint convention);
Ra - W1 - W2 after the trailing load when b ≤ L; and Ra - W1 for any
z > y when b > L. -/
theorem c5_shear_entries (L W1 W2 x : ℚ) (hL : 0 < L) (hx0 : 0 ≤ x)
    (hxL : x ≤ L) (hW1 : 0 < W1) (hW2 : 0 < W2) (i j : ℕ)
    (hi : i < num_points) (hj : j < num_points) :
    (positions L j < positions L i →
      SF_values L W1 W2 x i j = Ra L W1 W2 x (positions L i)) ∧
    (positions L j = positions L i →
      SF_values L W1 W2 x i j = Ra L W1 W2 x (positions L i) - W1 / 2) ∧
    (positions L i < positions L j → positions L j < positions L i + x →
      positions L i + x ≤ L →
      SF_values L W1 W2 x i j = Ra L W1 W2 x (positions L i) - W1) ∧
    (positions L i < positions L j → positions L j = positions L i + x →
      positions L i + x ≤ L →
      SF_values L W1 W2 x i j =
        Ra L W1 W2 x (positions L i) - W1 - W2 / 2) ∧
    (positions L i + x < positions L j → positions L i + x ≤ L →
      SF_values L W1 W2 x i j = Ra L W1 W2 x (positions L i) - W1 - W2) ∧
    (positions L i < positions L j → L < positions L i + x →
      SF_values L W1 W2 x i j = Ra L W1 W2 x (positions L i) - W1) :=
  SF_cases L W1 W2 x (positions L i) (positions L j) hx0

/-- Witness for c5_shear_entries at L = 10, W1 = W2 = 40, x = 3,
i = 1, j = 0. -/
theorem c5_shear_entries_witness :
    (positions 10 0 < positions 10 1 →
      SF_values 10 40 40 3 1 0 = Ra 10 40 40 3 (positions 10 1)) ∧
    (positions 10 0 = positions 10 1 →
      SF_values 10 40 40 3 1 0 = Ra 10 40 40 3 (positions 10 1) - 40 / 2) ∧
    (positions 10 1 < positions 10 0 → positions 10 0 < positions 10 1 + 3 →
      positions 10 1 + 3 ≤ 10 →
      SF_values 10 40 40 3 1 0 = Ra 10 40 40 3 (positions 10 1) - 40) ∧
    (positions 10 1 < positions 10 0 → positions 10 0 = positions 10 1 + 3 →
      positions 10 1 + 3 ≤ 10 →
      SF_values 10 40 40 3 1 0 =
        Ra 10 40 40 3 (positions 10 1) - 40 - 40 / 2) ∧
    (positions 10 1 + 3 < positions 10 0 → positions 10 1 + 3 ≤ 10 →
      SF_values 10 40 40 3 1 0 = Ra 10 40 40 3 (positions 10 1) - 40 - 40) ∧
    (positions 10 1 < positions 10 0 → 10 < positions 10 1 + 3 →
      SF_values 10 40 40 3 1 0 = Ra 10 40 40 3 (positions 10 1) - 40) :=
  c5_shear_entries 10 40 40 3 (by decide) (by decide) (by decide)
    (by decide) (by decide) 1 0 (by decide) (by decide)

/-- Claim C6: the moment field entry for reference position y =
positions L i, trailing load b = y + x and observation point z =
positions L j: Ra z before the leading load; Ra z - W1 (z - y) strictly
between the loads when b ≤ L; the three-load-term formula after the
trailing load when b ≤ L; Ra z - W1 (z - y) for z ≥ y when b > L; and
at the undistinguished edge cases z = y and z = b (b ≤ L) the between
formula, which at z = y coincides with Ra z. -/
theorem c6_moment_entries (L W1 W2 x : ℚ) (hL : 0 < L) (hx0 : 0 ≤ x)
    (hxL : x ≤ L) (hW1 : 0 < W1) (hW2 : 0 < W2) (i j : ℕ)
    (hi : i < num_points) (hj : j < num_points) :
    (positions L j < positions L i →
      BM_values L W1 W2 x i j =
        Ra L W1 W2 x (positions L i) * positions L j) ∧
    (positions L i < positions L j → positions L j < positions L i + x →
      positions L i + x ≤ L →
      BM_values L W1 W2 x i j =
        Ra L W1 W2 x (positions L i) * positions L j -
          W1 * (positions L j - positions L i)) ∧
    (positions L i + x < positions L j → positions L i + x ≤ L →
      BM_values L W1 W2 x i j =
        Ra L W1 W2 x (positions L i) * positions L j -
          W1 * (positions L j - positions L i) -
          W2 * (positions L j - (positions L i + x))) ∧
    (L < positions L i + x → positions L i ≤ positions L j →
      BM_values L W1 W2 x i j =
        Ra L W1 W2 x (positions L i) * positions L j -
          W1 * (positions L j - positions L i)) ∧
    (positions L j = positions L i →
      BM_values L W1 W2 x i j =
        Ra L W1 W2 x (positions L i) * positions L j -
          W1 * (positions L j - positions L i) ∧
      BM_values L W1 W2 x i j =
        Ra L W1 W2 x (positions L i) * positions L j) ∧
    (positions L i < positions L j → positions L j = positions L i + x →
      positions L i + x ≤ L →
      BM_values L W1 W2 x i j =
        Ra L W1 W2 x (positions L i) * positions L j -
          W1 * (positions L j - positions L i)) :=
  BM_cases L W1 W2 x (positions L i) (positions L j) hx0

/-- Witness for c6_moment_entries at L = 10, W1 = W2 = 40, x = 3,
i = 1, j = 0. -/
theorem c6_moment_entries_witness :
    (positions 10 0 < positions 10 1 →
      BM_values 10 40 40 3 1 0 =
        Ra 10 40 40 3 (positions 10 1) * positions 10 0) ∧
    (positions 10 1 < positions 10 0 → positions 10 0 < positions 10 1 + 3 →
      positions 10 1 + 3 ≤ 10 →
      BM_values 10 40 40 3 1 0 =
        Ra 10 40 40 3 (positions 10 1) * positions 10 0 -
          40 * (positions 10 0 - positions 10 1)) ∧
    (positions 10 1 + 3 < positions 10 0 → positions 10 1 + 3 ≤ 10 →
      BM_values 10 40 40 3 1 0 =
        Ra 10 40 40 3 (positions 10 1) * positions 10 0 -
          40 * (positions 10 0 - positions 10 1) -
          40 * (positions 10 0 - (positions 10 1 + 3))) ∧
    (10 < positions 10 1 + 3 → positions 10 1 ≤ positions 10 0 →
      BM_values 10 40 40 3 1 0 =
        Ra 10 40 40 3 (positions 10 1) * positions 10 0 -
          40 * (positions 10 0 - positions 10 1)) ∧
    (positions 10 0 = positions 10 1 →
      BM_values 10 40 40 3 1 0 =
        Ra 10 40 40 3 (positions 10 1) * positions 10 0 -
          40 * (positions 10 0 - positions 10 1) ∧
      BM_values 10 40 40 3 1 0 =
        Ra 10 40 40 3 (positions 10 1) * positions 10 0) ∧
    (positions 10 1 < positions 10 0 → positions 10 0 = positions 10 1 + 3 →
      positions 10 1 + 3 ≤ 10 →
      BM_values 10 40 40 3 1 0 =
        Ra 10 40 40 3 (positions 10 1) * positions 10 0 -
          40 * (positions 10 0 - positions 10 1)) :=
  c6_moment_entries 10 40 40 3 (by decide) (by decide) (by decide)
    (by decide) (by decide) 1 0 (by decide) (by decide)

/-- Claim C3: analyze_beam fails exactly when an input constraint is
violated (L ≤ 0, x < 0, x > L, W1 ≤ 0 or W2 ≤ 0); for all other inputs
it returns a result.  In the embedding the arithmetic of the ok branch
is total over ℚ, so no other failure exists. -/
theorem c3_validation (L W1 W2 x : ℚ) :
    (∃ e, analyze_beam L W1 W2 x = Except.error e) ↔
      (L ≤ 0 ∨ x < 0 ∨ L < x ∨ W1 ≤ 0 ∨ W2 ≤ 0) := by
  unfold analyze_beam
  split_ifs with h1 h2 h3
  · exact iff_of_true ⟨_, rfl⟩ (by tauto)
  · exact iff_of_true ⟨_, rfl⟩ (by tauto)
  · exact iff_of_true ⟨_, rfl⟩ (by tauto)
  · refine iff_of_false (by simp) ?_
    push_neg at h2 h3
    push_neg
    exact ⟨not_le.mp h1, h2.1, h2.2, h3.1, h3.2⟩

/-- Claim C1 (code bug): the max_SF loop returns the untouched initial
state at the valid input L = 10, W1 = W2 = 40, x = 3: the -inf sentinel
(embedded as none) with both positions 0, even though the shear field
holds the finite entry SF_values[0][0] = 48 of absolute value 48 > 0.
The loop guard compares abs(row value) with abs(max_SF) = abs(-inf) =
+inf and is never true, so the claimed maximum-absolute-shear reduction
is never performed, for this or any input (sfFold_eq_init). -/
theorem c1_maxSF_sentinel :
    maxSFreduce 10 40 40 3 = (none, 0, 0) ∧
      SF_values 10 40 40 3 0 0 = 48 := by
  constructor
  · unfold maxSFreduce
    exact sfFold_eq_init _ _ _ _
  · show SF 10 40 40 3 (positions 10 0) (positions 10 0) = 48
    rw [positions_zero]
    norm_num [SF, Ra]

/-- Claim C7: the max_BM reduction returns some row value: the largest
signed moment entry over all (reference position, observation point)
pairs, its observation point and its reference position; among reference
positions attaining the maximum the first in scan order wins (every
earlier row is strictly below), and within the winning row the stored
observation point is the first attaining the row maximum. -/
theorem c7_maxBM (L W1 W2 x : ℚ) :
    ∃ k, k < num_points ∧ ∃ jk, jk < num_points ∧
      maxBMreduce L W1 W2 x =
        (some (BM_values L W1 W2 x k jk), positions L jk, positions L k) ∧
      (∀ i, i < num_points → ∀ j, j < num_points →
        BM_values L W1 W2 x i j ≤ BM_values L W1 W2 x k jk) ∧
      (∀ i, i < k → ∀ j, j < num_points →
        BM_values L W1 W2 x i j < BM_values L W1 W2 x k jk) ∧
      (∀ j, j < jk →
        BM_values L W1 W2 x k j < BM_values L W1 W2 x k jk) := by
  have hnp : 0 < num_points := by norm_num [num_points]
  obtain ⟨k, hk, heq, hmax, hfirst⟩ :=
    bmFold_spec (fun i => BM_values L W1 W2 x i (bmRowIdx L W1 W2 x i))
      (fun i => positions L (bmRowIdx L W1 W2 x i))
      (fun i => positions L i) num_points hnp
  refine ⟨k, hk, bmRowIdx L W1 W2 x k, ?_, ?_, ?_, ?_, ?_⟩
  · exact (npArgmax_spec (fun j => BM_values L W1 W2 x k j) num_points
      hnp).1
  · exact heq
  · intro i hi j hj
    have h1 := (npArgmax_spec (fun j => BM_values L W1 W2 x i j)
      num_points hnp).2.1 j hj
    exact h1.trans (hmax i hi)
  · intro i hik j hj
    have h1 := (npArgmax_spec (fun j => BM_values L W1 W2 x i j)
      num_points hnp).2.1 j hj
    exact h1.trans_lt (hfirst i hik)
  · intro j hj
    exact (npArgmax_spec (fun j => BM_values L W1 W2 x k j) num_points
      hnp).2.2 j hj

/-- Claim C10: for every valid input, Ra is non-increasing (in fact
strictly decreasing) along the reference-position grid, so the
first-occurrence argmax lands on the first grid point and the reported
max_reaction_A_position is 0. -/
theorem c10_maxRa_at_zero (L W1 W2 x : ℚ) (hL : 0 < L) (hx0 : 0 ≤ x)
    (hxL : x ≤ L) (hW1 : 0 < W1) (hW2 : 0 < W2) :
    (∀ i j : ℕ, i < j → j < num_points →
      Ra L W1 W2 x (positions L j) ≤ Ra L W1 W2 x (positions L i)) ∧
    maxRaPos L W1 W2 x = 0 := by
  have key : ∀ i j : ℕ, i < j → j < num_points →
      Ra L W1 W2 x (positions L j) < Ra L W1 W2 x (positions L i) := by
    intro i j hij hj
    have hj' : j ≤ 999 := by
      have h : j < 1000 := by simpa [num_points] using hj
      omega
    exact Ra_strict_anti L W1 W2 x (positions L i) (positions L j) hL hx0
      hW1 hW2 (positions_nonneg L hL.le i)
      (positions_strictMono L hL i j hij) (positions_le L hL j hj')
  refine ⟨fun i j hij hj => (key i j hij hj).le, ?_⟩
  have hidx : maxRaIdx L W1 W2 x = 0 := by
    apply npArgmax_eq_zero
    intro i hi
    show Ra L W1 W2 x (positions L i) ≤ Ra L W1 W2 x (positions L 0)
    rcases Nat.eq_zero_or_pos i with h0 | h1
    · subst h0
      exact le_rfl
    · exact (key 0 i h1 hi).le
  show positions L (maxRaIdx L W1 W2 x) = 0
  rw [hidx]
  exact positions_zero L

/-- Witness for c10_maxRa_at_zero at L = 10, W1 = W2 = 40, x = 3. -/
theorem c10_maxRa_at_zero_witness :
    (∀ i j : ℕ, i < j → j < num_points →
      Ra 10 40 40 3 (positions 10 j) ≤ Ra 10 40 40 3 (positions 10 i)) ∧
    maxRaPos 10 40 40 3 = 0 :=
  c10_maxRa_at_zero 10 40 40 3 (by decide) (by decide) (by decide)
    (by decide) (by decide)

/-- Claim C8, corrected.  Under validation W2 = 0 is rejected and no
x ≤ L keeps the trailing load off-span at reference position 0, so the
nearest realizable reading of a single point load W is x = L (the
trailing load is off-span at every nonzero reference position) with W2
small.  Amended statement: for x = L and 0 < W2 < W, max_reaction_A = W
attained at reference position 0 and max_reaction_B = W attained at
reference position L. -/
theorem c8_single_load_reactions (L W W2 : ℚ) (hL : 0 < L) (hW2 : 0 < W2)
    (hlt : W2 < W) :
    maxRaVal L W W2 L = W ∧ maxRaPos L W W2 L = 0 ∧
      maxRbVal L W W2 L = W ∧ maxRbPos L W W2 L = L := by
  have hW : 0 < W := hW2.trans hlt
  have hL' : L ≠ 0 := hL.ne'
  have hf0 : Ra L W W2 L (positions L 0) = W := by
    rw [positions_zero,
      Ra_both L W W2 L 0 hL.le (by linarith) (by linarith)]
    field_simp
  have hfi : ∀ i, 1 ≤ i → i < num_points →
      Ra L W W2 L (positions L i) < W := by
    intro i h1 hi
    have hi' : i ≤ 999 := by
      have h : i < 1000 := by simpa [num_points] using hi
      omega
    have hy0 : 0 < positions L i := positions_pos L hL i h1
    have hyL : positions L i ≤ L := positions_le L hL i hi'
    rw [Ra_w1only L W W2 L _ hyL (by linarith)]
    rw [div_lt_iff₀ hL]
    nlinarith [mul_pos hW hy0]
  have hidxa : maxRaIdx L W W2 L = 0 := by
    apply npArgmax_eq_zero
    intro i hi
    show Ra L W W2 L (positions L i) ≤ Ra L W W2 L (positions L 0)
    rcases Nat.eq_zero_or_pos i with h0 | h1
    · subst h0
      exact le_rfl
    · rw [hf0]
      exact (hfi i h1 hi).le
  have hg999 : Rb L W W2 L (positions L 999) = W := by
    rw [positions_last, Rb_w1only L W W2 L L le_rfl (by linarith)]
    field_simp
  have hg0 : Rb L W W2 L (positions L 0) = W2 := by
    rw [positions_zero,
      Rb_both L W W2 L 0 hL.le (by linarith) (by linarith)]
    field_simp
  have hgi : ∀ i, 1 ≤ i → i ≤ 998 → Rb L W W2 L (positions L i) < W := by
    intro i h1 h2
    have hy0 : 0 < positions L i := positions_pos L hL i h1
    have hyL : positions L i ≤ L := positions_le L hL i (by omega)
    have hyLt : positions L i < L := positions_lt L hL i (by omega)
    rw [Rb_w1only L W W2 L _ hyL (by linarith)]
    rw [div_lt_iff₀ hL]
    nlinarith [mul_lt_mul_of_pos_left hyLt hW]
  have hidxb : maxRbIdx L W W2 L = 999 := by
    apply npArgmax_eq_of_strict _ num_points 999 (by norm_num [num_points])
    intro i hi hne
    show Rb L W W2 L (positions L i) < Rb L W W2 L (positions L 999)
    rw [hg999]
    rcases Nat.eq_zero_or_pos i with h0 | h1
    · subst h0
      rw [hg0]
      exact hlt
    · have hi' : i < 1000 := by simpa [num_points] using hi
      exact hgi i h1 (by omega)
  refine ⟨?_, ?_, ?_, ?_⟩
  · show Ra L W W2 L (positions L (maxRaIdx L W W2 L)) = W
    rw [hidxa]
    exact hf0
  · show positions L (maxRaIdx L W W2 L) = 0
    rw [hidxa]
    exact positions_zero L
  · show Rb L W W2 L (positions L (maxRbIdx L W W2 L)) = W
    rw [hidxb]
    exact hg999
  · show positions L (maxRbIdx L W W2 L) = L
    rw [hidxb]
    exact positions_last L

/-- Witness for c8_single_load_reactions at L = 2, W = 3, W2 = 1. -/
theorem c8_single_load_reactions_witness :
    maxRaVal 2 3 1 2 = 3 ∧ maxRaPos 2 3 1 2 = 0 ∧
      maxRbVal 2 3 1 2 = 3 ∧ maxRbPos 2 3 1 2 = 2 :=
  c8_single_load_reactions 2 3 1 (by decide) (by decide) (by decide)

/-- Counterexample to claim C8 as stated: at the valid input L = 1,
W1 = W2 = 1, x = L = 1 (the trailing load is off-span at every nonzero
reference position, the extreme admissible case of the claimed
single-load setting), max_reaction_B equals the load magnitude 1 but is
attained at reference position 0, not at L = 1: at reference position 0
the trailing load sits exactly on support B and already produces
Rb = W2 = 1, and np.argmax keeps the first occurrence. -/
theorem c8_single_load_counterexample :
    maxRbVal 1 1 1 1 = 1 ∧ maxRbPos 1 1 1 1 = 0 ∧
      maxRbPos 1 1 1 1 ≠ 1 := by
  have hg0 : Rb 1 1 1 1 (positions 1 0) = 1 := by
    rw [positions_zero,
      Rb_both 1 1 1 1 0 (by norm_num) (by norm_num) (by norm_num)]
    norm_num
  have hgi : ∀ i, 1 ≤ i → i < num_points →
      Rb 1 1 1 1 (positions 1 i) ≤ 1 := by
    intro i h1 hi
    have hi' : i ≤ 999 := by
      have h : i < 1000 := by simpa [num_points] using hi
      omega
    have hy0 : 0 < positions 1 i := positions_pos 1 (by norm_num) i h1
    have hyL : positions 1 i ≤ 1 := positions_le 1 (by norm_num) i hi'
    rw [Rb_w1only 1 1 1 1 _ hyL (by linarith)]
    simpa using hyL
  have hidx : maxRbIdx 1 1 1 1 = 0 := by
    apply npArgmax_eq_zero
    intro i hi
    show Rb 1 1 1 1 (positions 1 i) ≤ Rb 1 1 1 1 (positions 1 0)
    rcases Nat.eq_zero_or_pos i with h0 | h1
    · subst h0
      exact le_rfl
    · rw [hg0]
      exact hgi i h1 hi
  refine ⟨?_, ?_, ?_⟩
  · show Rb 1 1 1 1 (positions 1 (maxRbIdx 1 1 1 1)) = 1
    rw [hidx]
    exact hg0
  · show positions 1 (maxRbIdx 1 1 1 1) = 0
    rw [hidx]
    exact positions_zero 1
  · show positions 1 (maxRbIdx 1 1 1 1) ≠ 1
    rw [hidx, positions_zero 1]
    norm_num
